import Mathlib

/-!
Verification development for the HELEN stitching pipeline (pythseq/helen).

We shallowly embed the Python sources:
  * `stitch.py` — `process_marginpolish_h5py`, the driver that gathers
    contigs from an HDF5 store, sorts each contig's chunk keys, calls the
    stitcher, and writes consensus records to a FASTA file;
  * `modules/python/helper/VCF_remove_phase.py` — `fix_vcf`;
  * `modules/python/models/TransducerModel.py` — the transducer model
    classes `TransducerGRUBase` and `TransducerGRURLE`.

Python exceptions are modelled with `Except PyError`; machine-level tensor
operations are abstracted as opaque functions over an arbitrary type.
-/

/-- The Python exceptions that can arise in the embedded code. -/
inductive PyError where
  | valueError : String → PyError
  | typeError : String → PyError
  | attributeError : String → PyError
  | decodeError : String → PyError
deriving Repr, DecidableEq

/-! ### Python string order

`stitch.py` uses `sorted(...)` on HDF5 group keys (strings).  Python
compares strings lexicographically by Unicode code point.  We embed that
comparison directly on the character lists so that it evaluates inside the
kernel. -/

/-- Lexicographic code-point comparison of character lists, Python's `<=` on
strings restricted to the underlying character sequences. -/
def charListLe : List Char → List Char → Bool
  | [], _ => true
  | _ :: _, [] => false
  | a :: as, b :: bs =>
    if Nat.blt a.val.toNat b.val.toNat then true
    else if Nat.blt b.val.toNat a.val.toNat then false
    else charListLe as bs

/-- Python's `<=` on strings: lexicographic by code point. -/
def pyStrLe (a b : String) : Bool := charListLe a.data b.data

/-- `pyStrLe` as a relation, for use with `List.insertionSort`. -/
def pyLe (a b : String) : Prop := pyStrLe a b = true

instance : DecidableRel pyLe := fun _ _ => inferInstanceAs (Decidable (_ = true))

/-- Python's `sorted(...)` on a list of strings. -/
def pySorted (l : List String) : List String := List.insertionSort pyLe l

/-! ### `stitch.py`: `process_marginpolish_h5py`

The HDF5 store is modelled as an optional `predictions` group: an
association list from contig name to that contig's chunk keys in raw
(store-enumeration) order.  `Stitch.create_consensus_sequence` lives in
`modules/python/Stitch.py`, which is not part of the sources; it is kept
abstract as a function parameter (see `ConsensusFn`). -/

/-- An HDF5 prediction store: `predictions` is `none` when the top-level
`predictions` group is absent, otherwise the contigs in store-listing order,
each with its chunk keys in store-enumeration order. -/
structure HDF5Store where
  predictions : Option (List (String × List String))
deriving Repr, DecidableEq

/-- Modelled from the spec: `Stitch.create_consensus_sequence` (the class
`Stitch` in `modules/python/Stitch.py` is not among the sources; `stitch.py`
only calls it).  Per the spec the stitcher is deterministic — equal-scoring
alignments are tie-broken "lexicographically first by offset pair
(deterministic, reproducible output)" — so it is modelled as a pure function
of its four arguments `(hdf_file_path, contig, chunk_keys, threads)`,
returning either a consensus string, `None`, or raising (e.g. a decode
error). -/
def ConsensusFn : Type := String → String → List String → Nat → Except PyError (Option String)

/-- `hdf5_file['predictions'][contig].keys()`: the chunk keys of `contig` in
store-enumeration order.  Contig names in an HDF5 group are unique, so the
first match is the match. -/
def chunkKeysOf (preds : List (String × List String)) (contig : String) : List String :=
  match preds.find? (fun p => p.1 == contig) with
  | some p => p.2
  | none => []

/-- `sorted(hdf5_file['predictions'][contig].keys())` in the contig loop of
`process_marginpolish_h5py`. -/
def sortedChunkKeys (preds : List (String × List String)) (contig : String) : List String :=
  pySorted (chunkKeysOf preds contig)

/-- The observable outcome of the contig loop of `process_marginpolish_h5py`:
the FASTA lines written, the `(contig, chunk_keys)` argument pairs passed to
`create_consensus_sequence`, and the exception that escaped the loop, if
any. -/
structure LoopResult where
  lines : List String
  calls : List (String × List String)
  error : Option PyError
deriving Repr, DecidableEq

/-- The message of the `TypeError` raised by
`len(consensus_sequence)` when `create_consensus_sequence` returned `None`. -/
def lenNoneMsg : String := "object of type NoneType has no len()"

/-- The contig loop of `process_marginpolish_h5py`.  For each contig, in
store-listing order: sort the chunk keys, call
`create_consensus_sequence`, log `len(consensus_sequence)` (which raises
`TypeError` on `None`), and, if the consensus is not `None`, write the
header line and the sequence line.  An exception propagates: it ends the
loop, and the lines already written remain in the file. -/
def runContigs (consensus : ConsensusFn) (path : String)
    (preds : List (String × List String)) (threads : Nat) :
    List String → LoopResult
  | [] => { lines := [], calls := [], error := none }
  | contig :: rest =>
    let keys := sortedChunkKeys preds contig
    match consensus path contig keys threads with
    | .error e => { lines := [], calls := [(contig, keys)], error := some e }
    | .ok none =>
      { lines := [], calls := [(contig, keys)], error := some (.typeError lenNoneMsg) }
    | .ok (some s) =>
      let r := runContigs consensus path preds threads rest
      { lines := (">" ++ contig) :: s :: r.lines,
        calls := (contig, keys) :: r.calls,
        error := r.error }

/-- The observable outcome of a whole run of `process_marginpolish_h5py`:
`outputFile` is `none` when the output FASTA file was never opened, and
otherwise holds the lines written to it. -/
structure RunResult where
  outputFile : Option (List String)
  calls : List (String × List String)
  error : Option PyError
deriving Repr, DecidableEq

/-- The message of the `ValueError` raised when the store has no
`predictions` group. -/
def noPredictionsMsg : String := "ERROR: INVALID HDF5 FILE, FILE DOES NOT CONTAIN predictions KEY."

/-- `process_marginpolish_h5py(hdf_file_path, output_path, threads)` from
`stitch.py`: gather the contigs from the `predictions` group (raising
`ValueError` when the group is absent, before the output file is opened),
open the output FASTA file, then run the contig loop. -/
def process_marginpolish_h5py (store : HDF5Store) (consensus : ConsensusFn)
    (path : String) (threads : Nat) : RunResult :=
  match store.predictions with
  | none => { outputFile := none, calls := [], error := some (.valueError noPredictionsMsg) }
  | some preds =>
    let r := runContigs consensus path preds threads (preds.map Prod.fst)
    { outputFile := some r.lines, calls := r.calls, error := r.error }

/-- Whether `create_consensus_sequence` yields an actual string (not `None`,
no exception) for `contig` — the condition under which the contig loop both
survives the `len` call and writes the record. -/
def okStr (consensus : ConsensusFn) (path : String)
    (preds : List (String × List String)) (threads : Nat) (contig : String) : Bool :=
  match consensus path contig (sortedChunkKeys preds contig) threads with
  | .ok (some _) => true
  | _ => false

/-- The FASTA lines the loop writes for one contig whose consensus is the
string `s`: the header line and the sequence line. -/
def recLines (consensus : ConsensusFn) (path : String)
    (preds : List (String × List String)) (threads : Nat) (contig : String) : List String :=
  match consensus path contig (sortedChunkKeys preds contig) threads with
  | .ok (some s) => [">" ++ contig, s]
  | _ => []

/-! ### Concrete fixtures for the stitching claims -/

/-- A store with two contigs; used to exhibit the missing per-contig failure
isolation. -/
def storeTwo : HDF5Store :=
  { predictions := some [("c1", ["k1"]), ("c2", ["k2"])] }

/-- A stitcher that raises a decode error on contig `c1` and succeeds with
`"AAA"` on every other contig. -/
def consRaiseC1 : ConsensusFn := fun _ contig _ _ =>
  if contig == "c1" then .error (.decodeError "bad rle") else .ok (some "AAA")

/-- A store with a single contig `c1`. -/
def storeOne : HDF5Store := { predictions := some [("c1", ["k1"])] }

/-- A store whose top-level `predictions` group is absent. -/
def storeNoPred : HDF5Store := { predictions := none }

/-- A stitcher that returns `None` on every contig. -/
def consNone : ConsensusFn := fun _ _ _ _ => .ok none

/-- A stitcher that returns the empty string on every contig. -/
def consEmpty : ConsensusFn := fun _ _ _ _ => .ok (some "")

/-- A stitcher that returns a fixed nonempty string on every contig. -/
def consAAA : ConsensusFn := fun _ _ _ _ => .ok (some "AAA")

/-- A store with one contig whose chunk keys are enumerated out of order. -/
def storeShuffled : HDF5Store :=
  { predictions := some [("c1", ["k2", "k1", "k3"])] }

/-- The same store with the chunk keys enumerated in a different order. -/
def storeShuffled2 : HDF5Store :=
  { predictions := some [("c1", ["k1", "k3", "k2"])] }

/-! ### `VCF_remove_phase.py`: `fix_vcf`

Only the loop body matters here.  A record contributes one iteration per
sample; the only datum the loop reads from an entry is
`str(record.samples[sample]['PS'])`, so a record is modelled as the list of
those strings and the input VCF as the list of records.  The Python name
`PS_dictionary` is first bound to `defaultdict(int)` and later re-bound to
the integer `PS_value`, so its value is modelled by a sum type. -/

/-- The value bound to the Python name `PS_dictionary`: initially a dict
(only key membership is ever used; `in` on a `defaultdict` does not insert),
but the loop re-binds the name to an `int`. -/
inductive PSDict where
  | dict : List String → PSDict
  | int : Int → PSDict
deriving Repr, DecidableEq

/-- The message of the `TypeError` raised by `x in n` when `n` is an `int`. -/
def intNotIterableMsg : String := "argument of type int is not iterable"

/-- Python's `input_ps not in PS_dictionary`: membership on a dict, a
`TypeError` once the name holds an `int`. -/
def psNotIn (input_ps : String) : PSDict → Except PyError Bool
  | .dict keys => .ok (!keys.contains input_ps)
  | .int _ => .error (.typeError intNotIterableMsg)

/-- The loop state of `fix_vcf`: the current values of `PS_dictionary` and
`PS_value`, and the `PS` strings written to the output records so far (the
loop writes the record once per sample entry). -/
structure FixState where
  psDict : PSDict
  psValue : Int
  outPS : List String
deriving Repr, DecidableEq

/-- One iteration of the inner `for sample in record.samples` loop of
`fix_vcf`: test `input_ps not in PS_dictionary`; when absent, re-bind
`PS_dictionary` to the current `PS_value` and add 50 to `PS_value`; then set
the sample's `PS` to `str(PS_value)` and write the record. -/
def fixVcfSample (st : FixState) (input_ps : String) : Except PyError FixState :=
  match psNotIn input_ps st.psDict with
  | .error e => .error e
  | .ok notIn =>
    let st' := if notIn
      then { st with psDict := .int st.psValue, psValue := st.psValue + 50 }
      else st
    .ok { st' with outPS := st'.outPS ++ [toString st'.psValue] }

/-- The inner sample loop of `fix_vcf` over one record's sample entries. -/
def fixVcfSamples : FixState → List String → Except PyError FixState
  | st, [] => .ok st
  | st, ps :: rest =>
    match fixVcfSample st ps with
    | .error e => .error e
    | .ok st' => fixVcfSamples st' rest

/-- The outer `for record in records` loop of `fix_vcf`. -/
def fixVcfRecords : FixState → List (List String) → Except PyError FixState
  | st, [] => .ok st
  | st, rec :: rest =>
    match fixVcfSamples st rec with
    | .error e => .error e
    | .ok st' => fixVcfRecords st' rest

/-- The initial loop state of `fix_vcf`: `PS_dictionary = defaultdict(int)`
(empty), `PS_value = 100`, nothing written. -/
def fixVcfInit : FixState := { psDict := .dict [], psValue := 100, outPS := [] }

/-- `fix_vcf(input_vcf, output_vcf)` from `VCF_remove_phase.py`, as a
function of the fetched records. -/
def fix_vcf (records : List (List String)) : Except PyError FixState :=
  fixVcfRecords fixVcfInit records

/-! ### `TransducerModel.py`

Tensors are opaque: an arbitrary type `T` with the tensor operations used by
`TransducerGRURLE.forward` supplied as functions.  A GRU layer maps
`(input, hidden)` to `(output, hidden)`; a linear layer maps a tensor to a
tensor. -/

/-- The tensor operations `TransducerGRURLE.forward` applies besides its own
layers: `h.transpose(0, 1).contiguous()`, `x[:, i]` and
`torch.cat(tensors, dim=2)`. -/
structure TensorOps (T : Type) where
  transpose01 : T → T
  index1 : T → Nat → T
  cat_dim2 : List T → T

/-- The layers of `TransducerGRURLE`, as assigned in its `__init__`: four
per-base GRU encoder/decoder pairs with their linear classifiers, the
combined GRU encoder/decoder pair, and the combined linear classifier
`dense_rle_combined`. -/
structure TransducerGRURLE (T : Type) where
  rle_encoder_A : T → T → T × T
  rle_decoder_A : T → T → T × T
  rle_encoder_C : T → T → T × T
  rle_decoder_C : T → T → T × T
  rle_encoder_G : T → T → T × T
  rle_decoder_G : T → T → T × T
  rle_encoder_T : T → T → T × T
  rle_decoder_T : T → T → T × T
  dense_rleA : T → T
  dense_rleC : T → T
  dense_rleG : T → T
  dense_rleT : T → T
  rle_encoder_combined : T → T → T × T
  rle_decoder_combined : T → T → T × T
  dense_rle_combined : T → T

/-- `TransducerGRURLE.forward`, translated statement by statement from the
source.  Note the final classification line of the source is
`rle_out = self.dense_rleT(x_out_rle_combined_final)`. -/
def TransducerGRURLE.forward {T : Type} (ops : TensorOps T) (m : TransducerGRURLE T)
    (x_rle base_out hidden_rle_combined hidden_rle_a hidden_rle_c hidden_rle_g hidden_rle_t : T) :
    T × T × T × T × T × T :=
  let hidden_rle_a := ops.transpose01 hidden_rle_a
  let hidden_rle_c := ops.transpose01 hidden_rle_c
  let hidden_rle_g := ops.transpose01 hidden_rle_g
  let hidden_rle_t := ops.transpose01 hidden_rle_t
  let hidden_rle_combined := ops.transpose01 hidden_rle_combined
  let rle_a_features := ops.index1 x_rle 0
  let rle_c_features := ops.index1 x_rle 1
  let rle_g_features := ops.index1 x_rle 2
  let rle_t_features := ops.index1 x_rle 3
  let enc_a := m.rle_encoder_A rle_a_features hidden_rle_a
  let dec_a := m.rle_decoder_A enc_a.1 enc_a.2
  let x_out_rle_a_out := m.dense_rleA dec_a.1
  let enc_c := m.rle_encoder_C rle_c_features hidden_rle_c
  let dec_c := m.rle_decoder_C enc_c.1 enc_c.2
  let x_out_rle_c_out := m.dense_rleC dec_c.1
  let enc_g := m.rle_encoder_G rle_g_features hidden_rle_g
  let dec_g := m.rle_decoder_G enc_g.1 enc_g.2
  let x_out_rle_g_out := m.dense_rleG dec_g.1
  let enc_t := m.rle_encoder_T rle_t_features hidden_rle_t
  let dec_t := m.rle_decoder_T enc_t.1 enc_t.2
  let x_out_rle_t_out := m.dense_rleT dec_t.1
  let all_rle_features :=
    ops.cat_dim2 [base_out, x_out_rle_a_out, x_out_rle_c_out, x_out_rle_g_out, x_out_rle_t_out]
  let enc_comb := m.rle_encoder_combined all_rle_features hidden_rle_combined
  let dec_comb := m.rle_decoder_combined enc_comb.1 enc_comb.2
  let rle_out := m.dense_rleT dec_comb.1
  (rle_out, ops.transpose01 dec_a.2, ops.transpose01 dec_c.2, ops.transpose01 dec_g.2,
    ops.transpose01 dec_t.2, ops.transpose01 dec_comb.2)

/-- The combined RLE decoder output `x_out_rle_combined_final` of
`TransducerGRURLE.forward`: the same pipeline up to (and including)
`rle_decoder_combined`. -/
def TransducerGRURLE.combinedDecoderOutput {T : Type} (ops : TensorOps T) (m : TransducerGRURLE T)
    (x_rle base_out hidden_rle_combined hidden_rle_a hidden_rle_c hidden_rle_g hidden_rle_t : T) :
    T :=
  let hidden_rle_a := ops.transpose01 hidden_rle_a
  let hidden_rle_c := ops.transpose01 hidden_rle_c
  let hidden_rle_g := ops.transpose01 hidden_rle_g
  let hidden_rle_t := ops.transpose01 hidden_rle_t
  let hidden_rle_combined := ops.transpose01 hidden_rle_combined
  let rle_a_features := ops.index1 x_rle 0
  let rle_c_features := ops.index1 x_rle 1
  let rle_g_features := ops.index1 x_rle 2
  let rle_t_features := ops.index1 x_rle 3
  let enc_a := m.rle_encoder_A rle_a_features hidden_rle_a
  let dec_a := m.rle_decoder_A enc_a.1 enc_a.2
  let x_out_rle_a_out := m.dense_rleA dec_a.1
  let enc_c := m.rle_encoder_C rle_c_features hidden_rle_c
  let dec_c := m.rle_decoder_C enc_c.1 enc_c.2
  let x_out_rle_c_out := m.dense_rleC dec_c.1
  let enc_g := m.rle_encoder_G rle_g_features hidden_rle_g
  let dec_g := m.rle_decoder_G enc_g.1 enc_g.2
  let x_out_rle_g_out := m.dense_rleG dec_g.1
  let enc_t := m.rle_encoder_T rle_t_features hidden_rle_t
  let dec_t := m.rle_decoder_T enc_t.1 enc_t.2
  let x_out_rle_t_out := m.dense_rleT dec_t.1
  let all_rle_features :=
    ops.cat_dim2 [base_out, x_out_rle_a_out, x_out_rle_c_out, x_out_rle_g_out, x_out_rle_t_out]
  let enc_comb := m.rle_encoder_combined all_rle_features hidden_rle_combined
  let dec_comb := m.rle_decoder_combined enc_comb.1 enc_comb.2
  dec_comb.1

/-! ### `init_hidden` and Python attribute lookup

Both `TransducerGRUBase.init_hidden` and `TransducerGRURLE.init_hidden` read
`self.hidden_size`.  Python resolves `self.name` against the attributes the
object actually carries; for an `nn.Module` subclass these are the instance
attributes set by `nn.Module.__init__` plus whatever its own `__init__`
assigned, and `nn.Module.__getattr__` raises `AttributeError` for anything
else.  We model the attribute table as an association list from name to an
opaque object id. -/

/-- Python attribute lookup on an object with attribute table `attrs`:
the object id on success, `AttributeError` otherwise. -/
def getattrPy (attrs : List (String × Nat)) (name : String) : Except PyError Nat :=
  match attrs.find? (fun p => p.1 == name) with
  | some p => .ok p.2
  | none => .error (.attributeError name)

/-- The instance attributes set by `nn.Module.__init__` (none of them is
named `hidden_size`). -/
def nnModuleAttrs : List (String × Nat) :=
  [("training", 0), ("_parameters", 1), ("_buffers", 2), ("_non_persistent_buffers_set", 3),
   ("_backward_hooks", 4), ("_forward_hooks", 5), ("_forward_pre_hooks", 6),
   ("_state_dict_hooks", 7), ("_load_state_dict_pre_hooks", 8), ("_modules", 9)]

/-- The attribute table of a `TransducerGRUBase` instance: the base-module
attributes plus the three layers assigned in its `__init__`. -/
def transducerGRUBaseAttrs : List (String × Nat) :=
  nnModuleAttrs ++ [("gru_encoder", 10), ("gru_decoder", 11), ("dense1_base", 12)]

/-- The attribute table of a `TransducerGRURLE` instance: the base-module
attributes plus the fields assigned in its `__init__`. -/
def transducerGRURLEAttrs : List (String × Nat) :=
  nnModuleAttrs ++
  [("rle_encoder_A", 10), ("rle_decoder_A", 11), ("rle_encoder_C", 12), ("rle_decoder_C", 13),
   ("rle_encoder_G", 14), ("rle_decoder_G", 15), ("rle_encoder_T", 16), ("rle_decoder_T", 17),
   ("dense_rleA", 18), ("dense_rleC", 19), ("dense_rleG", 20), ("dense_rleT", 21),
   ("total_rle_features", 22), ("rle_encoder_combined", 23), ("rle_decoder_combined", 24),
   ("dense_rle_combined", 25)]

/-- `init_hidden(self, batch_size, num_layers, bidirectional=True)` — the
method body shared verbatim by `TransducerGRUBase` and `TransducerGRURLE`:
compute `num_directions`, then build
`torch.zeros(batch_size, num_directions * num_layers, self.hidden_size)`,
whose shape triple is returned on success.  Reading `self.hidden_size`
consults the attribute table of `self`. -/
def init_hidden (attrs : List (String × Nat)) (batch_size num_layers : Nat)
    (bidirectional : Bool) : Except PyError (Nat × Nat × Nat) :=
  let num_directions := if bidirectional then 2 else 1
  match getattrPy attrs "hidden_size" with
  | .error e => .error e
  | .ok hs => .ok (batch_size, num_directions * num_layers, hs)

/-! ### Order properties of the Python string comparison -/

theorem charListLe_total (x y : List Char) : charListLe x y = true ∨ charListLe y x = true := by
  induction x generalizing y with
  | nil => left; rfl
  | cons a as ih =>
    cases y with
    | nil => right; rfl
    | cons b bs =>
      simp only [charListLe, Nat.blt_eq]
      rcases ih bs with h | h <;>
        rcases Nat.lt_trichotomy a.val.toNat b.val.toNat with hc | hc | hc <;>
        simp_all

theorem charListLe_trans (x y z : List Char) (h1 : charListLe x y = true)
    (h2 : charListLe y z = true) : charListLe x z = true := by
  induction x generalizing y z with
  | nil => rfl
  | cons a as ih =>
    cases y with
    | nil => simp [charListLe] at h1
    | cons b bs =>
      cases z with
      | nil => simp [charListLe] at h2
      | cons c cs =>
        simp only [charListLe, Nat.blt_eq] at h1 h2 ⊢
        split_ifs at h1 h2 ⊢ <;>
          first
          | rfl
          | exact ih bs cs h1 h2
          | (exfalso; omega)

theorem charListLe_antisymm (x y : List Char) (h1 : charListLe x y = true)
    (h2 : charListLe y x = true) : x = y := by
  induction x generalizing y with
  | nil =>
    cases y with
    | nil => rfl
    | cons b bs => simp [charListLe] at h2
  | cons a as ih =>
    cases y with
    | nil => simp [charListLe] at h1
    | cons b bs =>
      simp only [charListLe, Nat.blt_eq] at h1 h2
      by_cases hab : a.val.toNat < b.val.toNat
      · rw [if_neg (by omega), if_pos hab] at h2; simp at h2
      · by_cases hba : b.val.toNat < a.val.toNat
        · rw [if_neg hab, if_pos hba] at h1; simp at h1
        · rw [if_neg hab, if_neg hba] at h1
          rw [if_neg hba, if_neg hab] at h2
          have hv : a = b := Char.ext (UInt32.ext (by omega))
          rw [hv, ih bs h1 h2]

instance : IsTotal String pyLe := ⟨fun a b => charListLe_total a.data b.data⟩

instance : IsTrans String pyLe := ⟨fun a b c => charListLe_trans a.data b.data c.data⟩

instance : IsAntisymm String pyLe :=
  ⟨fun a b h1 h2 => by
    cases a with
    | mk da =>
      cases b with
      | mk db => exact congrArg String.mk (charListLe_antisymm da db h1 h2)⟩

theorem pySorted_sorted (l : List String) : (pySorted l).Sorted pyLe :=
  List.sorted_insertionSort pyLe l

theorem pySorted_perm (l : List String) : (pySorted l).Perm l :=
  List.perm_insertionSort pyLe l

theorem pySorted_eq_of_perm (l1 l2 : List String) (h : l1.Perm l2) :
    pySorted l1 = pySorted l2 :=
  List.eq_of_perm_of_sorted ((pySorted_perm l1).trans (h.trans (pySorted_perm l2).symm))
    (pySorted_sorted l1) (pySorted_sorted l2)

/-! ### Structure of the contig loop -/

theorem runContigs_nil (consensus : ConsensusFn) (path : String)
    (preds : List (String × List String)) (threads : Nat) :
    runContigs consensus path preds threads [] = { lines := [], calls := [], error := none } :=
  rfl

theorem runContigs_lines_eq (consensus : ConsensusFn) (path : String)
    (preds : List (String × List String)) (threads : Nat) (contigs : List String) :
    (runContigs consensus path preds threads contigs).lines
      = (contigs.takeWhile (okStr consensus path preds threads)).flatMap
          (recLines consensus path preds threads) := by
  induction contigs with
  | nil => rfl
  | cons contig rest ih =>
    cases h : consensus path contig (sortedChunkKeys preds contig) threads with
    | error e => simp [runContigs, okStr, recLines, h]
    | ok o =>
      cases o with
      | none => simp [runContigs, okStr, recLines, h]
      | some s => simp [runContigs, okStr, recLines, h, ih]

theorem runContigs_calls_of_no_error (consensus : ConsensusFn) (path : String)
    (preds : List (String × List String)) (threads : Nat) (contigs : List String)
    (h : (runContigs consensus path preds threads contigs).error = none) :
    (runContigs consensus path preds threads contigs).calls
      = contigs.map (fun c => (c, sortedChunkKeys preds c)) := by
  induction contigs with
  | nil => rfl
  | cons contig rest ih =>
    cases hc : consensus path contig (sortedChunkKeys preds contig) threads with
    | error e => simp [runContigs, hc] at h
    | ok o =>
      cases o with
      | none => simp [runContigs, hc] at h
      | some s =>
        simp only [runContigs, hc] at h ⊢
        exact congrArg _ (ih h)

theorem runContigs_congr (consensus : ConsensusFn) (path : String)
    (preds1 preds2 : List (String × List String)) (threads : Nat)
    (hkeys : ∀ c, sortedChunkKeys preds1 c = sortedChunkKeys preds2 c) (contigs : List String) :
    runContigs consensus path preds1 threads contigs
      = runContigs consensus path preds2 threads contigs := by
  induction contigs with
  | nil => rfl
  | cons contig rest ih =>
    simp only [runContigs, hkeys contig, ih]

theorem runContigs_stops_at_error (consensus : ConsensusFn) (path : String)
    (preds : List (String × List String)) (threads : Nat) (pre : List String)
    (contig : String) (post : List String) (e : PyError)
    (hpre : ∀ c ∈ pre, okStr consensus path preds threads c = true)
    (hc : consensus path contig (sortedChunkKeys preds contig) threads = .error e) :
    runContigs consensus path preds threads (pre ++ contig :: post)
      = { lines := pre.flatMap (recLines consensus path preds threads),
          calls := (pre ++ [contig]).map (fun c => (c, sortedChunkKeys preds c)),
          error := some e } := by
  induction pre with
  | nil => simp [runContigs, hc]
  | cons p ps ih =>
    have hp := hpre p (by simp)
    unfold okStr at hp
    cases hcall : consensus path p (sortedChunkKeys preds p) threads with
    | error e2 => rw [hcall] at hp; cases hp
    | ok o =>
      cases o with
      | none => rw [hcall] at hp; cases hp
      | some s =>
        have ihh := ih (fun c hmem => hpre c (by simp [hmem]))
        simp only [List.cons_append, runContigs, hcall]
        simp [ihh, recLines, hcall]

/-- A stitcher that raises a decode error on contig `c2` and succeeds with
`"AAA"` on every other contig. -/
def consRaiseC2 : ConsensusFn := fun _ contig _ _ =>
  if contig == "c2" then .error (.decodeError "bad rle") else .ok (some "AAA")

/-- C1 (counterexample): the claim of per-contig failure isolation fails on
the code.  With a two-contig store where stitching `c1` raises a decode
error and stitching `c2` would succeed with `"AAA"`,
`process_marginpolish_h5py` writes no record at all (in particular none for
`c2`), never calls the stitcher for `c2`, and lets the exception escape. -/
theorem C1_counterexample :
    consRaiseC1 "in.h5" "c2" ["k2"] 5 = .ok (some "AAA")
    ∧ process_marginpolish_h5py storeTwo consRaiseC1 "in.h5" 5
        = { outputFile := some [], calls := [("c1", ["k1"])],
            error := some (.decodeError "bad rle") } :=
  ⟨rfl, rfl⟩

/-- C1 (amended): in `process_marginpolish_h5py` there is no per-contig
isolation.  If every contig before `contig` stitches to a string and
stitching `contig` raises `e`, then the run terminates with `e`: the output
file holds exactly the records of the earlier contigs, the stitcher was
called only for the earlier contigs and for `contig`, and no later contig is
processed. -/
theorem C1_amended (store : HDF5Store) (consensus : ConsensusFn) (path : String)
    (threads : Nat) (preds : List (String × List String)) (pre : List String)
    (contig : String) (post : List String) (e : PyError)
    (hpreds : store.predictions = some preds)
    (horder : preds.map Prod.fst = pre ++ contig :: post)
    (hpre : ∀ c ∈ pre, okStr consensus path preds threads c = true)
    (hc : consensus path contig (sortedChunkKeys preds contig) threads = .error e) :
    process_marginpolish_h5py store consensus path threads
      = { outputFile := some (pre.flatMap (recLines consensus path preds threads)),
          calls := (pre ++ [contig]).map (fun c => (c, sortedChunkKeys preds c)),
          error := some e } := by
  simp [process_marginpolish_h5py, hpreds, horder,
    runContigs_stops_at_error consensus path preds threads pre contig post e hpre hc]

/-- C1 (witness for the amended theorem): on the two-contig store where
`c2` raises, the record of `c1` is written and the run then dies with the
decode error. -/
theorem C1_amended_witness :
    process_marginpolish_h5py storeTwo consRaiseC2 "in.h5" 3
      = { outputFile := some [">c1", "AAA"],
          calls := [("c1", ["k1"]), ("c2", ["k2"])],
          error := some (.decodeError "bad rle") } := by
  have h := C1_amended storeTwo consRaiseC2 "in.h5" 3 [("c1", ["k1"]), ("c2", ["k2"])]
    ["c1"] "c2" [] (.decodeError "bad rle") rfl rfl (by decide) rfl
  simpa using h

/-- C2 (code bug): a `None` consensus is meant to be acceptable — the loop
even guards the write with `if consensus_sequence is not None` — but the
logging line computes `len(consensus_sequence)` first, so a contig whose
consensus is `None` raises `TypeError` and aborts the run instead of being
skipped quietly. -/
theorem C2_none_raises :
    consNone "in.h5" "c1" ["k1"] 5 = .ok none
    ∧ process_marginpolish_h5py storeOne consNone "in.h5" 5
        = { outputFile := some [], calls := [("c1", ["k1"])],
            error := some (.typeError lenNoneMsg) } :=
  ⟨rfl, rfl⟩

/-- C3 (confirmed): when the `predictions` group is absent the run raises
`ValueError` before the output file is opened and before any contig is
processed; when it is present the check passes, the output file is opened,
and the contig loop runs over the listed contigs. -/
theorem C3_predictions_check (store : HDF5Store) (consensus : ConsensusFn)
    (path : String) (threads : Nat) :
    (store.predictions = none →
      process_marginpolish_h5py store consensus path threads
        = { outputFile := none, calls := [],
            error := some (.valueError noPredictionsMsg) })
    ∧ ∀ preds, store.predictions = some preds →
        process_marginpolish_h5py store consensus path threads
          = { outputFile :=
                some (runContigs consensus path preds threads (preds.map Prod.fst)).lines,
              calls := (runContigs consensus path preds threads (preds.map Prod.fst)).calls,
              error := (runContigs consensus path preds threads (preds.map Prod.fst)).error } := by
  constructor
  · intro h; simp [process_marginpolish_h5py, h]
  · intro preds h; simp [process_marginpolish_h5py, h]

/-- C3 (witness): a store without `predictions` terminates with the
`ValueError` and no output file; a store with `predictions` gets its contig
processed and written. -/
theorem C3_predictions_check_witness :
    process_marginpolish_h5py storeNoPred consAAA "in.h5" 5
      = { outputFile := none, calls := [], error := some (.valueError noPredictionsMsg) }
    ∧ (process_marginpolish_h5py storeOne consAAA "in.h5" 5).outputFile
        = some [">c1", "AAA"] := by
  refine ⟨(C3_predictions_check storeNoPred consAAA "in.h5" 5).1 rfl, ?_⟩
  rw [(C3_predictions_check storeOne consAAA "in.h5" 5).2 [("c1", ["k1"])] rfl]
  rfl

/-- C4 (confirmed): the lines of the output file are exactly the records, in
store-listing order, of the maximal prefix of listed contigs whose consensus
was produced as a string; a contig record never appears out of store-listing
order. -/
theorem C4_output_order (store : HDF5Store) (consensus : ConsensusFn) (path : String)
    (threads : Nat) (preds : List (String × List String))
    (hpreds : store.predictions = some preds) :
    (process_marginpolish_h5py store consensus path threads).outputFile
      = some (((preds.map Prod.fst).takeWhile (okStr consensus path preds threads)).flatMap
          (recLines consensus path preds threads)) := by
  simp [process_marginpolish_h5py, hpreds, runContigs_lines_eq]

/-- C4 (witness): with `c1` succeeding and `c2` raising, the output is
exactly the record of `c1`. -/
theorem C4_output_order_witness :
    (process_marginpolish_h5py storeTwo consRaiseC2 "in.h5" 5).outputFile
      = some [">c1", "AAA"] := by
  rw [C4_output_order storeTwo consRaiseC2 "in.h5" 5 [("c1", ["k1"]), ("c2", ["k2"])] rfl]
  rfl

theorem runContigs_calls_take (consensus : ConsensusFn) (path : String)
    (preds : List (String × List String)) (threads : Nat) (contigs : List String) :
    ∃ k, k ≤ contigs.length
      ∧ (runContigs consensus path preds threads contigs).calls
          = (contigs.take k).map (fun c => (c, sortedChunkKeys preds c))
      ∧ ((runContigs consensus path preds threads contigs).error = none →
          k = contigs.length) := by
  induction contigs with
  | nil => exact ⟨0, by simp, rfl, fun _ => rfl⟩
  | cons contig rest ih =>
    cases hc : consensus path contig (sortedChunkKeys preds contig) threads with
    | error e =>
      refine ⟨1, by simp, by simp [runContigs, hc], ?_⟩
      intro h
      simp [runContigs, hc] at h
    | ok o =>
      cases o with
      | none =>
        refine ⟨1, by simp, by simp [runContigs, hc], ?_⟩
        intro h
        simp [runContigs, hc] at h
      | some s =>
        obtain ⟨k, hk, hcalls, hfull⟩ := ih
        refine ⟨k + 1, by simpa using Nat.succ_le_succ hk, ?_, ?_⟩
        · simp [runContigs, hc, hcalls]
        · intro h
          have hlen := hfull (by simpa [runContigs, hc] using h)
          simp [hlen]

/-- C5 (counterexample): the unconditional claim — every contig's chunk
list is retrieved and stitched exactly once per run — fails on aborting
runs.  With two listed contigs where `c1` yields a `None` consensus, the
run dies at `c1` and the stitcher is never called for the listed contig
`c2`. -/
theorem C5_counterexample :
    storeTwo.predictions = some [("c1", ["k1"]), ("c2", ["k2"])]
    ∧ (process_marginpolish_h5py storeTwo consNone "in.h5" 5).calls = [("c1", ["k1"])]
    ∧ ∀ pr ∈ (process_marginpolish_h5py storeTwo consNone "in.h5" 5).calls,
        pr.1 ≠ "c2" :=
  ⟨rfl, rfl, by decide⟩

/-- C5 (amended): in every run on a store whose `predictions` group is
present, the stitcher calls are exactly one per contig of an initial
segment of the store-listed contigs, taken in listing order — so no
contig is ever stitched twice, and a run that ends without an exception
stitches every listed contig exactly once (contigs after an aborting
contig are never stitched).  Every call that does occur hands the stitcher
exactly the contig's stored chunk keys sorted lexicographically: sorted
under the Python string order, a permutation of the stored keys, and
duplicate-free whenever the stored keys are, which HDF5 guarantees. -/
theorem C5_chunk_keys_amended (store : HDF5Store) (consensus : ConsensusFn) (path : String)
    (threads : Nat) (preds : List (String × List String))
    (hpreds : store.predictions = some preds) :
    (∃ k, k ≤ (preds.map Prod.fst).length
      ∧ (process_marginpolish_h5py store consensus path threads).calls
          = ((preds.map Prod.fst).take k).map (fun c => (c, sortedChunkKeys preds c))
      ∧ ((process_marginpolish_h5py store consensus path threads).error = none →
          k = (preds.map Prod.fst).length))
    ∧ ∀ pr ∈ (process_marginpolish_h5py store consensus path threads).calls,
        pr.2.Sorted pyLe ∧ pr.2.Perm (chunkKeysOf preds pr.1)
          ∧ ((chunkKeysOf preds pr.1).Nodup → pr.2.Nodup) := by
  have hproc : process_marginpolish_h5py store consensus path threads
      = { outputFile :=
            some (runContigs consensus path preds threads (preds.map Prod.fst)).lines,
          calls := (runContigs consensus path preds threads (preds.map Prod.fst)).calls,
          error := (runContigs consensus path preds threads (preds.map Prod.fst)).error } := by
    simp [process_marginpolish_h5py, hpreds]
  obtain ⟨k, hk, hcalls, hfull⟩ :=
    runContigs_calls_take consensus path preds threads (preds.map Prod.fst)
  constructor
  · exact ⟨k, hk, by rw [hproc]; exact hcalls, by rw [hproc]; exact hfull⟩
  · intro pr hpr
    rw [hproc] at hpr
    rw [hcalls] at hpr
    rcases List.mem_map.mp hpr with ⟨c, _, hceq⟩
    subst hceq
    exact ⟨pySorted_sorted _, pySorted_perm _,
      fun hnd => ((pySorted_perm (chunkKeysOf preds c)).nodup_iff).mpr hnd⟩

/-- C5 (witness for the amended theorem): on a completing run over a
contig whose keys are stored in the order `k2, k1, k3`, the single
stitcher call receives `k1, k2, k3`, sorted. -/
theorem C5_chunk_keys_amended_witness :
    (process_marginpolish_h5py storeShuffled consAAA "in.h5" 5).calls
      = [("c1", ["k1", "k2", "k3"])]
    ∧ (["k1", "k2", "k3"] : List String).Sorted pyLe := by
  obtain ⟨⟨k, hk, hcalls, hfull⟩, hall⟩ := C5_chunk_keys_amended storeShuffled consAAA
    "in.h5" 5 [("c1", ["k2", "k1", "k3"])] rfl
  have hk1 : k = 1 := hfull rfl
  subst hk1
  constructor
  · rw [hcalls]; rfl
  · have hm : (("c1", ["k1", "k2", "k3"]) : String × List String)
        ∈ (process_marginpolish_h5py storeShuffled consAAA "in.h5" 5).calls := by
      rw [hcalls]; decide
    exact (hall _ hm).1

/-- C6 (counterexample): the claim that a record is written only for a
non-empty consensus fails: a contig whose consensus is the empty string gets
a header line and an empty sequence line written, because the code only
checks `is not None`. -/
theorem C6_counterexample :
    consEmpty "in.h5" "c1" ["k1"] 5 = .ok (some "")
    ∧ (process_marginpolish_h5py storeOne consEmpty "in.h5" 5).outputFile
        = some [">c1", ""] :=
  ⟨rfl, rfl⟩

/-- C6 (amended): a contig's record — one header line and one sequence line
— is written exactly when `create_consensus_sequence` returned a string,
empty or not; when it returns `None` or raises, nothing is written for that
contig (the run then dies, so nothing is written after it either). -/
theorem C6_record_iff_string (consensus : ConsensusFn) (path : String)
    (preds : List (String × List String)) (threads : Nat) (contig : String)
    (rest : List String) :
    (∀ s, consensus path contig (sortedChunkKeys preds contig) threads = .ok (some s) →
        (runContigs consensus path preds threads (contig :: rest)).lines.take 2
          = [">" ++ contig, s])
    ∧ (okStr consensus path preds threads contig = false →
        (runContigs consensus path preds threads (contig :: rest)).lines = []) := by
  constructor
  · intro s hs; simp [runContigs, hs]
  · intro h
    unfold okStr at h
    cases hc : consensus path contig (sortedChunkKeys preds contig) threads with
    | error e => simp [runContigs, hc]
    | ok o =>
      cases o with
      | none => simp [runContigs, hc]
      | some s => rw [hc] at h; cases h

/-- C6 (witness for the amended theorem): the empty-string consensus still
yields a two-line record, and a `None` consensus yields no lines. -/
theorem C6_record_iff_string_witness :
    (runContigs consEmpty "in.h5" [("c1", ["k1"])] 5 ["c1"]).lines.take 2 = [">c1", ""]
    ∧ (runContigs consNone "in.h5" [("c1", ["k1"])] 5 ["c1"]).lines = [] :=
  ⟨(C6_record_iff_string consEmpty "in.h5" [("c1", ["k1"])] 5 "c1" []).1 "" rfl,
   (C6_record_iff_string consNone "in.h5" [("c1", ["k1"])] 5 "c1" []).2 rfl⟩

/-- C7 (confirmed): the run is a pure function of the store contents.  Two
stores that list the same contigs in the same order and hold the same chunk
keys per contig — even enumerated in different orders — produce identical
run results with the same stitcher, path and thread count; in particular two
runs on identical input are byte-identical. -/
theorem C7_deterministic (store1 store2 : HDF5Store) (consensus : ConsensusFn)
    (path : String) (threads : Nat) (preds1 preds2 : List (String × List String))
    (h1 : store1.predictions = some preds1) (h2 : store2.predictions = some preds2)
    (hcontigs : preds1.map Prod.fst = preds2.map Prod.fst)
    (hkeys : ∀ c, (chunkKeysOf preds1 c).Perm (chunkKeysOf preds2 c)) :
    process_marginpolish_h5py store1 consensus path threads
      = process_marginpolish_h5py store2 consensus path threads := by
  have hs : ∀ c, sortedChunkKeys preds1 c = sortedChunkKeys preds2 c := fun c =>
    pySorted_eq_of_perm _ _ (hkeys c)
  simp [process_marginpolish_h5py, h1, h2, ← hcontigs,
    runContigs_congr consensus path preds1 preds2 threads hs]

/-- C7 (witness): the same contig with its chunk keys enumerated in two
different orders yields identical run results. -/
theorem C7_deterministic_witness :
    process_marginpolish_h5py storeShuffled consAAA "in.h5" 5
      = process_marginpolish_h5py storeShuffled2 consAAA "in.h5" 5 := by
  refine C7_deterministic storeShuffled storeShuffled2 consAAA "in.h5" 5
    [("c1", ["k2", "k1", "k3"])] [("c1", ["k1", "k3", "k2"])] rfl rfl rfl ?_
  intro c
  by_cases hc : ("c1" : String) == c
  · simp only [chunkKeysOf, List.find?, hc]; decide
  · simp only [chunkKeysOf, List.find?, hc]
    exact List.Perm.refl []

/-! ### Behaviour of the `fix_vcf` loop -/

theorem fixVcfSample_init (e : String) :
    fixVcfSample fixVcfInit e
      = .ok { psDict := .int 100, psValue := 150, outPS := [toString (150 : Int)] } := rfl

theorem fixVcfSample_int (st : FixState) (v : Int) (hst : st.psDict = .int v) (e : String) :
    fixVcfSample st e = .error (.typeError intNotIterableMsg) := by
  simp [fixVcfSample, psNotIn, hst]

theorem fixVcfSamples_append (st : FixState) (l1 l2 : List String) :
    fixVcfSamples st (l1 ++ l2)
      = match fixVcfSamples st l1 with
        | .error e => .error e
        | .ok st' => fixVcfSamples st' l2 := by
  induction l1 generalizing st with
  | nil => rfl
  | cons p ps ih =>
    simp only [List.cons_append, fixVcfSamples]
    cases fixVcfSample st p with
    | error e => rfl
    | ok st' => exact ih st'

theorem fixVcfRecords_eq_flatten (st : FixState) (records : List (List String)) :
    fixVcfRecords st records = fixVcfSamples st records.flatten := by
  induction records generalizing st with
  | nil => rfl
  | cons rec rest ih =>
    simp only [List.flatten_cons, fixVcfRecords, fixVcfSamples_append]
    cases fixVcfSamples st rec with
    | error e => rfl
    | ok st' => exact ih st'

/-- C8 (confirmed): `fix_vcf` only completes on inputs with at most one
sample genotype entry in total.  Its first iteration re-binds the name
`PS_dictionary` from the (empty) dict to the integer `PS_value`, so on the
second entry the membership test `input_ps not in PS_dictionary` is applied
to an `int` and raises `TypeError`.  With zero entries the state is
untouched; with exactly one entry the dict has been replaced by the integer
`100` — no string key is ever stored, so the intended per-phase-set
remapping never happens. -/
theorem C8_fix_vcf_two_entries (records : List (List String)) :
    (2 ≤ records.flatten.length →
      fix_vcf records = .error (.typeError intNotIterableMsg))
    ∧ (records.flatten = [] → fix_vcf records = .ok fixVcfInit)
    ∧ ∀ e, records.flatten = [e] →
        fix_vcf records
          = .ok { psDict := .int 100, psValue := 150, outPS := [toString (150 : Int)] } := by
  unfold fix_vcf
  rw [fixVcfRecords_eq_flatten]
  refine ⟨?_, ?_, ?_⟩
  · intro hlen
    match hfl : records.flatten with
    | [] => rw [hfl] at hlen; simp at hlen
    | [e] => rw [hfl] at hlen; simp at hlen
    | e1 :: e2 :: rest =>
      simp only [fixVcfSamples, fixVcfSample_init,
        fixVcfSample_int { psDict := .int 100, psValue := 150, outPS := [toString (150 : Int)] }
          100 rfl e2]
  · intro hfl; rw [hfl]; rfl
  · intro e hfl; rw [hfl]
    simp [fixVcfSamples, fixVcfSample_init]

/-- C8 (witness): a VCF with one record carrying two sample entries dies
with the `TypeError`; an empty VCF and a single-entry VCF complete. -/
theorem C8_fix_vcf_two_entries_witness :
    fix_vcf [["1", "2"]] = .error (.typeError intNotIterableMsg)
    ∧ fix_vcf [] = .ok fixVcfInit
    ∧ fix_vcf [["7"]]
        = .ok { psDict := .int 100, psValue := 150, outPS := [toString (150 : Int)] } :=
  ⟨(C8_fix_vcf_two_entries [["1", "2"]]).1 (by decide),
   (C8_fix_vcf_two_entries []).2.1 rfl,
   (C8_fix_vcf_two_entries [["7"]]).2.2 "7" rfl⟩

/-- C9 (confirmed): in `TransducerGRURLE.forward` the combined RLE output
`rle_out` is `dense_rleT` applied to the combined decoder output
`x_out_rle_combined_final`; the layer `dense_rle_combined` constructed in
`__init__` is never applied, so the whole forward output is unchanged under
any replacement of `dense_rle_combined`. -/
theorem C9_rle_out_ignores_dense_rle_combined {T : Type} (ops : TensorOps T)
    (m : TransducerGRURLE T) (f : T → T)
    (x_rle base_out hidden_rle_combined hidden_rle_a hidden_rle_c hidden_rle_g hidden_rle_t : T) :
    (TransducerGRURLE.forward ops m x_rle base_out hidden_rle_combined hidden_rle_a
        hidden_rle_c hidden_rle_g hidden_rle_t).1
      = m.dense_rleT (TransducerGRURLE.combinedDecoderOutput ops m x_rle base_out
          hidden_rle_combined hidden_rle_a hidden_rle_c hidden_rle_g hidden_rle_t)
    ∧ TransducerGRURLE.forward ops { m with dense_rle_combined := f } x_rle base_out
        hidden_rle_combined hidden_rle_a hidden_rle_c hidden_rle_g hidden_rle_t
      = TransducerGRURLE.forward ops m x_rle base_out hidden_rle_combined hidden_rle_a
          hidden_rle_c hidden_rle_g hidden_rle_t :=
  ⟨rfl, rfl⟩

/-- C10 (confirmed): `init_hidden` reads `self.hidden_size`, an attribute
neither `TransducerGRUBase.__init__` nor `TransducerGRURLE.__init__` (nor
`nn.Module.__init__`) ever assigns, so every call on either class raises
`AttributeError`, for all argument values. -/
theorem C10_init_hidden_raises (batch_size num_layers : Nat) (bidirectional : Bool) :
    init_hidden transducerGRUBaseAttrs batch_size num_layers bidirectional
      = .error (.attributeError "hidden_size")
    ∧ init_hidden transducerGRURLEAttrs batch_size num_layers bidirectional
      = .error (.attributeError "hidden_size") :=
  ⟨rfl, rfl⟩
